import Mathlib

/-!
Verification of the TDD enforcement engine.

Shallow embedding of the repository's TDD enforcement core:
`hooks/validators/tdd_enforcer.py` (file-role classifier, candidate test
path generator, session store access, decision engine, stdin/stdout
adapter) and `hooks/validators/session_start_tdd.py` (session reset).

Paths are modelled as POSIX path strings, mirroring `pathlib.PurePosixPath`
semantics for the operations the code uses (`parts`, `name`, `stem`,
`suffix`, `parent`, `/`, `str`).  JSON documents are modelled by the
inductive `JVal`; the persisted store file by `StoreContent`;
`pathlib.Path.resolve` (which consults the process working directory and
the filesystem) is a parameter `Resolve` of the engine, with two concrete
honest instances (`plainResolve`, `linkResolve`) used for witnesses.
Python runtime errors that the code can raise past its boundary are
modelled by `Except PyErr`.
-/

/-! ## POSIX path model (the `pathlib` operations used by the code) -/

/-- Split a character list at `/` separators (semantics of
`str.split('/')` for the single-character separator). -/
def splitSlashAux : List Char → List Char → List (List Char)
  | [], acc => [acc.reverse]
  | c :: rest, acc =>
    if c = '/' then acc.reverse :: splitSlashAux rest []
    else splitSlashAux rest (c :: acc)

/-- The non-root components of a POSIX path: split on `/`, dropping empty
components and single dots, as `PurePosixPath` does ("spurious slashes
and single dots are collapsed"). -/
def pyComps (s : String) : List String :=
  ((splitSlashAux s.toList []).map (fun l => String.mk l)).filter
    (fun c => c != "" && c != ".")

/-- Whether the path string is absolute (leading `/`). -/
def pyIsAbs (s : String) : Bool :=
  match s.toList with
  | '/' :: _ => true
  | _ => false

/-- Semantics of `PurePosixPath(s).parts`: the root (if any) followed by the
components. -/
def pyParts (s : String) : List String :=
  (if pyIsAbs s then ["/"] else []) ++ pyComps s

/-- Semantics of `PurePosixPath(s).name`: the final component, `""` if there is
none. -/
def pyNameOf (s : String) : String :=
  (pyComps s).getLast?.getD ""

/-- Index of the last `.` in a character list, if any. -/
def lastDotIdxAux : List Char → Nat → Option Nat → Option Nat
  | [], _, acc => acc
  | c :: rest, i, acc =>
    lastDotIdxAux rest (i + 1) (if c = '.' then some i else acc)

/-- Semantics of `PurePosixPath` `suffix` on a file *name*: `name[i:]` for the last
dot index `i` when `0 < i < len(name) - 1`, else `""`. -/
def pySuffixOfName (nm : String) : String :=
  let cs := nm.toList
  match lastDotIdxAux cs 0 none with
  | some i => if 0 < i && i + 1 < cs.length then String.mk (cs.drop i) else ""
  | none => ""

/-- Semantics of `PurePosixPath` `stem` on a file name: the name with its suffix
removed. -/
def pyStemOfName (nm : String) : String :=
  let cs := nm.toList
  String.mk (cs.take (cs.length - (pySuffixOfName nm).toList.length))

/-- ASCII lower-casing, the behaviour of `str.lower()` on the ASCII
names this code manipulates. -/
def pyLower (s : String) : String :=
  String.mk (s.toList.map Char.toLower)

/-- Boolean list-prefix test over characters. -/
def charsPref : List Char → List Char → Bool
  | [], _ => true
  | _ :: _, [] => false
  | a :: as, b :: bs => a = b && charsPref as bs

/-- Boolean list-contiguous-sublist test over characters. -/
def charsSub (pat : List Char) : List Char → Bool
  | [] => pat.isEmpty
  | c :: rest => charsPref pat (c :: rest) || charsSub pat rest

/-- Substring test, the behaviour of Python's `pat in s` on strings. -/
def containsSub (s pat : String) : Bool :=
  charsSub pat.toList s.toList

/-- Append one component to a component list, dropping empty and dot
components as `PurePosixPath` joining does. -/
def appendC (comps : List String) (c : String) : List String :=
  if c = "" || c = "." then comps else comps ++ [c]

/-- Rendering `str()` of a pure POSIX path given as root flag plus components. -/
def renderPath (isAbs : Bool) (comps : List String) : String :=
  if isAbs then "/" ++ String.intercalate "/" comps
  else if comps.isEmpty then "." else String.intercalate "/" comps

/-- Replace the first occurrence of `a` in a component list by `b`
(`parts.index("src")` followed by assignment in the source). -/
def replaceFirstComp : List String → String → String → List String
  | [], _, _ => []
  | c :: rest, a, b =>
    if c = a then b :: rest else c :: replaceFirstComp rest a b

/-! ## File role classifier (`is_test_file`, `is_impl_file`) -/

/-- The `test_patterns` list of `is_test_file`. -/
def testPatterns : List String :=
  [".test.", ".spec.", "_test.", "_spec.", "test_", "spec_"]

/-- Function `is_test_file` from `tdd_enforcer.py`: a path is a test file when a
`__tests__` or `tests` segment occurs among its parts, or its lower-cased
file name contains one of the test marker substrings. -/
def is_test_file (file_path : String) : Bool :=
  let nm := pyLower (pyNameOf file_path)
  if (pyParts file_path).contains "__tests__" then true
  else if (pyParts file_path).contains "tests" then true
  else testPatterns.any (fun pat => containsSub nm pat)

/-- The `extensions` set of `is_impl_file`. -/
def implExtensions : List String :=
  [".ts", ".tsx", ".js", ".jsx", ".mjs", ".cjs"]

/-- The `config_patterns` list of `is_impl_file`. -/
def configPatterns : List String :=
  ["config.", ".config.", "rc.", ".d.ts",
   "vite.config", "vitest.config", "jest.config",
   "tsconfig", "eslint", "prettier"]

/-- Function `is_impl_file` from `tdd_enforcer.py`: recognized extension, not a
test file, and no configuration marker in the lower-cased name. -/
def is_impl_file (file_path : String) : Bool :=
  if !(implExtensions.contains (pySuffixOfName (pyNameOf file_path))) then false
  else if is_test_file file_path then false
  else !(configPatterns.any (fun pat =>
    containsSub (pyLower (pyNameOf file_path)) pat))

/-! ## Candidate test path generator (`find_matching_tests`) -/

/-- Function `find_matching_tests` from `tdd_enforcer.py`: same-directory
`.test`/`.spec`/`_test`/`_spec` siblings, then the `__tests__`
subdirectory variants (`.test`, `.spec`, and the bare name), then, when a
`src` segment occurs in the parent, the path with the first `src`
replaced by `tests`, with `.test`/`.spec` variants. -/
def find_matching_tests (impl_path : String) : List String :=
  let abs := pyIsAbs impl_path
  let comps := pyComps impl_path
  let nm := comps.getLast?.getD ""
  let sfx := pySuffixOfName nm
  let stm := pyStemOfName nm
  let parentComps := comps.dropLast
  let sameDir :=
    [stm ++ ".test" ++ sfx, stm ++ ".spec" ++ sfx,
     stm ++ "_test" ++ sfx, stm ++ "_spec" ++ sfx].map
      (fun c => renderPath abs (appendC parentComps c))
  let testsDir :=
    [stm ++ ".test" ++ sfx, stm ++ ".spec" ++ sfx, stm ++ sfx].map
      (fun c => renderPath abs (appendC (appendC parentComps "__tests__") c))
  let srcMirror :=
    if parentComps.contains "src" then
      let mirrored := replaceFirstComp parentComps "src" "tests"
      [stm ++ ".test" ++ sfx, stm ++ ".spec" ++ sfx].map
        (fun c => renderPath abs (appendC mirrored c))
    else []
  sameDir ++ testsDir ++ srcMirror

/-- Semantics of `file_path.replace('.ts', '.test.ts')`: replace every non-overlapping
occurrence, scanning left to right (dead code in the source, reachable
only if the candidate list were empty; embedded for fidelity). -/
def pyReplaceAux : Nat → List Char → List Char
  | 0, s => s
  | _ + 1, [] => []
  | n + 1, c :: rest =>
    if charsPref (".ts".toList) (c :: rest) then
      (".test.ts".toList) ++ pyReplaceAux n ((c :: rest).drop 3)
    else c :: pyReplaceAux n rest

/-- Wrapper for `file_path.replace('.ts', '.test.ts')` on strings. -/
def pyReplaceTs (s : String) : String :=
  String.mk (pyReplaceAux s.toList.length s.toList)

/-! ## JSON values, store content, Python errors -/

/-- JSON documents (the shapes `json.loads` can produce that this code
ever touches; duplicate object keys are not produced by `json.loads`). -/
inductive JVal where
  | null : JVal
  | jbool : Bool → JVal
  | jnum : Int → JVal
  | jstr : String → JVal
  | jarr : List JVal → JVal
  | jobj : List (String × JVal) → JVal

/-- Content of the persisted store file: absent, unreadable-or-unparsable
(`IOError` / `json.JSONDecodeError` in `load_state`), or a parsed JSON
document. -/
inductive StoreContent where
  | missing : StoreContent
  | corrupt : StoreContent
  | json : JVal → StoreContent

/-- Python runtime errors the engine can raise past its boundary. -/
inductive PyErr where
  | attributeError : PyErr
  | typeError : PyErr
  | keyError : PyErr
deriving DecidableEq

/-- Content of the invocation's input channel: not valid JSON
(`json.load` raises `JSONDecodeError`) or a parsed document. -/
inductive StdinContent where
  | notJson : StdinContent
  | json : JVal → StdinContent

/-- First-match lookup in an object's key/value list (`d[k]` / `d.get(k)`
for dictionaries produced by `json.loads`, whose keys are distinct). -/
def objLookup (l : List (String × JVal)) (k : String) : Option JVal :=
  (l.find? (fun p => p.1 = k)).map (fun p => p.2)

/-- Update the value at a key in an object's key/value list, preserving
order and the other entries (`state[k] = v` on a dict that has `k`). -/
def objSet (l : List (String × JVal)) (k : String) (v : JVal) :
    List (String × JVal) :=
  l.map (fun p => if p.1 = k then (k, v) else p)

/-- Semantics of `d.get(k, default)`: only dictionaries have `.get`; every other
value raises `AttributeError`. -/
def pyGetDefault (j : JVal) (k : String) (d : JVal) : Except PyErr JVal :=
  match j with
  | .jobj l => .ok ((objLookup l k).getD d)
  | _ => .error .attributeError

/-- Python truthiness (`if not file_path`). -/
def pyTruthy : JVal → Bool
  | .null => false
  | .jbool b => b
  | .jnum n => n != 0
  | .jstr s => s != ""
  | .jarr l => !l.isEmpty
  | .jobj l => !l.isEmpty

/-- Membership of a string `x` in an iterated collection of JSON values
(Python `==`: a string never equals a non-string). -/
def strMemB (l : List JVal) (x : String) : Bool :=
  l.any (fun e =>
    match e with
    | .jstr t => t = x
    | _ => false)

/-- Semantics of `x in v` for a string `x`: list membership compares with `==`, `in`
on a string is a substring test, `in` on a dict tests keys; other values
are not iterable (`TypeError`). -/
def pyNotInStr (x : String) (v : JVal) : Except PyErr Bool :=
  match v with
  | .jarr l => .ok (!(strMemB l x))
  | .jstr t => .ok (!(containsSub t x))
  | .jobj l => .ok (!(l.any (fun p => p.1 = x)))
  | _ => .error .typeError

/-- Semantics of `v.append(x)`: only lists have `.append`; everything else raises
`AttributeError`. -/
def pyAppendStr (v : JVal) (x : String) : Except PyErr JVal :=
  match v with
  | .jarr l => .ok (.jarr (l ++ [.jstr x]))
  | _ => .error .attributeError

/-- Semantics of `set(v)`: iterating a list requires hashable elements (nested lists
or dicts raise `TypeError`); a string yields its characters; a dict its
keys; other values are not iterable.  The result is kept as a list: only
emptiness, membership of strings and element iteration are used, and all
are insensitive to deduplication for this code. -/
def pySetOfJ (v : JVal) : Except PyErr (List JVal) :=
  match v with
  | .jarr l =>
    if l.any (fun e =>
        match e with
        | .jarr _ => true
        | .jobj _ => true
        | _ => false) then
      .error .typeError
    else .ok l
  | .jstr s => .ok (s.toList.map (fun c => .jstr (String.mk [c])))
  | .jobj l => .ok (l.map (fun p => .jstr p.1))
  | _ => .error .typeError

/-! ## Path normalization (`normalize_path` / `Path.resolve`) -/

/-- Function `normalize_path` calls `Path(file_path).resolve()`, which consults
the invoking process's working directory and filesystem (symlinks).  The
engine is therefore parameterized by the resolver the environment
provides. -/
def Resolve : Type := String → String

/-- Collapse `..` components lexically (what `resolve` does in a
filesystem without symlinks). -/
def collapseDots (cs : List String) : List String :=
  cs.foldl (fun acc c => if c = ".." then acc.dropLast else acc ++ [c]) []

/-- Model of `Path.resolve()` for a process whose working directory is `cwd`, in a
filesystem with no symlinks: relative paths are anchored at `cwd`, and
the result is an absolute normalized path. -/
def plainResolve (cwd : String) (p : String) : String :=
  renderPath true
    (collapseDots (pyComps (if pyIsAbs p then p else cwd ++ "/" ++ p)))

/-- Model of `Path.resolve()` for a process at `cwd` in a filesystem where each
pair `(link, target)` in `links` is a symlink from the full path `link`
to the already-resolved path `target`. -/
def linkResolve (cwd : String) (links : List (String × String)) (p : String) :
    String :=
  let a := plainResolve cwd p
  match links.find? (fun q => q.1 = a) with
  | some q => q.2
  | none => a

/-! ## Session state store (`load_state`, `save_state`) -/

/-- The default state `load_state` substitutes for a missing, unreadable
or unparsable store file. -/
def defaultState : JVal :=
  .jobj [("test_files_modified", .jarr []), ("session_id", .null)]

/-- Function `load_state` from `tdd_enforcer.py`: parse the store file, degrading
read and parse failures (only those) to the default state.  A file whose
content is valid JSON is returned as parsed, with no shape check. -/
def load_state : StoreContent → JVal
  | .missing => defaultState
  | .corrupt => defaultState
  | .json j => j

/-! ## Decision engine and protocol adapter (`main`) -/

/-- What one invocation observably does: the bytes printed on stdout,
and the document `save_state` wrote, if it was called at all. -/
structure RunOut where
  output : String
  saved : Option JVal

/-- JSON escaping of one character as `json.dumps` performs it for the
ASCII text this program emits. -/
def escChar (c : Char) : List Char :=
  if c = '"' then ['\\', '"']
  else if c = '\\' then ['\\', '\\']
  else if c = '\n' then ['\\', 'n']
  else if c = '\t' then ['\\', 't']
  else if c = '\r' then ['\\', 'r']
  else if c.toNat < 32 then
    ['\\', 'u', '0', '0',
     (Nat.digitChar (c.toNat / 16)), (Nat.digitChar (c.toNat % 16))]
  else [c]

/-- JSON escaping of a string as `json.dumps` performs it. -/
def jsonEscape (s : String) : String :=
  String.mk (s.toList.flatMap escChar)

/-- A JSON string literal as `json.dumps` renders it. -/
def pyJsonStr (s : String) : String :=
  "\"" ++ jsonEscape s ++ "\""

/-- The apostrophe character (U+0027), used in the block reason text. -/
def apos : String :=
  String.mk [Char.ofNat 39]

/-- Bytes of `print(json.dumps({"decision": "allow"}))`: `json.dumps`'s
default separators put a space after the colon, and `print` appends a
newline. -/
def allowLine : String :=
  "\x7b\"decision\": \"allow\"\x7d\n"

/-- The f-string reason of the block response, with `suggested` the
suggested test path interpolated by `main`. -/
def blockReason (suggested : String) : String :=
  "TDD Violation: Write test first!\n\nYou" ++ apos ++
  "re trying to write implementation code without a test.\n\n" ++
  "Suggested test file: " ++ suggested ++
  "\n\nWrite and save the test file first, then you can write the implementation."

/-- Bytes of `print(json.dumps({"decision": "block", "reason": ...}))`. -/
def blockLine (suggested : String) : String :=
  "\x7b\"decision\": \"block\", \"reason\": " ++
  pyJsonStr (blockReason suggested) ++ "\x7d\n"

/-- The test-file branch of `main` (lines 151-156 of `tdd_enforcer.py`):
subscript the loaded state at `test_files_modified` (KeyError when the
key is absent, TypeError when the state is not a dictionary), test
membership of the normalized path, and on absence append it and call
`save_state`. -/
def runTestBranch (normalized : String) (store : StoreContent) :
    Except PyErr RunOut :=
  match load_state store with
  | .jobj l =>
    match objLookup l "test_files_modified" with
    | none => .error .keyError
    | some v =>
      match pyNotInStr normalized v with
      | .error e => .error e
      | .ok notIn =>
        if notIn then
          match pyAppendStr v normalized with
          | .error e => .error e
          | .ok v2 =>
            .ok ⟨allowLine, some (.jobj (objSet l "test_files_modified" v2))⟩
        else .ok ⟨allowLine, none⟩
  | _ => .error .typeError

/-- One step of the candidate loop of `main` (lines 168-177): compare
the recorded entries' file names with the candidate's, raising
`TypeError` on a recorded entry that is not a string
(`Path(modified)`). -/
def fallbackScan (tp : String) : List JVal → Except PyErr Bool
  | [] => .ok false
  | m :: rest =>
    match m with
    | .jstr ms =>
      if pyLower (pyNameOf ms) = pyLower (pyNameOf tp) then .ok true
      else fallbackScan tp rest
    | _ => .error .typeError

/-- The candidate loop of `main` (lines 168-177): for each candidate, an
exact match of its resolved form against the recorded set, then the
case-insensitive file-name fallback over the recorded set. -/
def implLoop (resolve : Resolve) (modified : List JVal) :
    List String → Except PyErr Bool
  | [] => .ok false
  | tp :: rest =>
    if strMemB modified (resolve tp) then .ok true
    else
      match fallbackScan tp modified with
      | .error e => .error e
      | .ok true => .ok true
      | .ok false => implLoop resolve modified rest

/-- The implementation-file branch of `main` (lines 164-185): build the
candidate list, read the recorded set via `state.get` and `set(...)`,
run the candidate loop, and emit allow or the block message naming the
first candidate. -/
def runImplBranch (resolve : Resolve) (file_path : String)
    (store : StoreContent) : Except PyErr RunOut :=
  let possible := find_matching_tests file_path
  match pyGetDefault (load_state store) "test_files_modified" (.jarr []) with
  | .error e => .error e
  | .ok mv =>
    match pySetOfJ mv with
    | .error e => .error e
    | .ok modified =>
      match implLoop resolve modified possible with
      | .error e => .error e
      | .ok true => .ok ⟨allowLine, none⟩
      | .ok false =>
        .ok ⟨blockLine (possible.head?.getD (pyReplaceTs file_path)), none⟩

/-- The role dispatch of `main` (lines 151-161): test files are recorded
and allowed, non-implementation files allowed, implementation files
gated by the candidate loop. -/
def dispatchPath (resolve : Resolve) (file_path : String)
    (store : StoreContent) : Except PyErr RunOut :=
  if is_test_file file_path then
    runTestBranch (resolve file_path) store
  else if is_impl_file file_path then
    runImplBranch resolve file_path store
  else .ok ⟨allowLine, none⟩

/-- Lines 139-140 of `main`: `input_data.get("tool_input", {})` then
`tool_input.get("file_path", "")` (each `.get` raises `AttributeError`
on a non-dictionary). -/
def extractFilePath (input_data : JVal) : Except PyErr JVal :=
  match pyGetDefault input_data "tool_input" (.jobj []) with
  | .error e => .error e
  | .ok tool_input => pyGetDefault tool_input "file_path" (.jstr "")

/-- Function `main` from `tdd_enforcer.py`: parse stdin, extract the target path, and
dispatch on its role. -/
def mainRun (resolve : Resolve) (stdin : StdinContent) (store : StoreContent) :
    Except PyErr RunOut :=
  match stdin with
  | .notJson => .ok ⟨allowLine, none⟩
  | .json input_data =>
    match extractFilePath input_data with
    | .error e => .error e
    | .ok fpv =>
      if pyTruthy fpv then
        match fpv with
        | .jstr file_path => dispatchPath resolve file_path store
        | _ => .error .typeError
      else .ok ⟨allowLine, none⟩

/-- The store content after one invocation: the saved document when
`save_state` ran, otherwise the store is untouched (also when the
process died on an uncaught exception). -/
def runStore (resolve : Resolve) (stdin : StdinContent)
    (store : StoreContent) : StoreContent :=
  match mainRun resolve stdin store with
  | .ok r =>
    match r.saved with
    | some j => .json j
    | none => store
  | .error _ => store

/-- A hook request whose `tool_input.file_path` is `fp`. -/
def writeReq (fp : String) : StdinContent :=
  .json (.jobj [("tool_input", .jobj [("file_path", .jstr fp)])])

/-- A sequence of invocations, each with its own resolver (working
directory and filesystem) and request, sharing the store. -/
def runSeq : List (Resolve × StdinContent) → StoreContent → StoreContent
  | [], store => store
  | (r, i) :: rest, store => runSeq rest (runStore r i store)

/-! ## Session lifecycle reset (`session_start_tdd.py`) -/

/-- The `initial_state` document that the reset hook writes. -/
def resetState : JVal :=
  .jobj [("test_files_modified", .jarr []),
         ("session_id", .null), ("started_at", .null)]

/-- Bytes of `print(json.dumps({"status": "reset", "message": ...}))`. -/
def resetLine : String :=
  "\x7b\"status\": \"reset\", \"message\": \"TDD session state cleared\"\x7d\n"

/-- Output and written store of one reset invocation. -/
structure ResetOut where
  output : String
  store : StoreContent

/-- Function `main` from `session_start_tdd.py`: unconditionally overwrite the
store (creating the backing directory if missing) with the empty state
and print a confirmation. -/
def sessionStartRun (_store : StoreContent) : ResetOut :=
  ⟨resetLine, .json resetState⟩

/-! ## Derived views used by the theorems -/

/-- Read a JSON array of strings. -/
def strList? : List JVal → Option (List String)
  | [] => some []
  | .jstr s :: rest => (strList? rest).map (fun t => s :: t)
  | _ :: _ => none

/-- The recorded-test set a store denotes, when the store is one the
code round-trips: a missing or unreadable store denotes the empty
default, and a parsed store must be an object whose
`test_files_modified` entry is an array of strings. -/
def storeTests : StoreContent → Option (List String)
  | .missing => some []
  | .corrupt => some []
  | .json (.jobj l) =>
    match objLookup l "test_files_modified" with
    | some (.jarr es) => strList? es
    | some _ => none
    | none => none
  | .json _ => none

/-- Whether an implementation path's candidate set matches the recorded
list `l`: some candidate resolves to a recorded path exactly, or some
recorded path's file name equals some candidate's file name after
lower-casing. -/
def matchesRecorded (resolve : Resolve) (l : List String) (fp : String) :
    Bool :=
  (find_matching_tests fp).any (fun tp =>
    l.any (fun t => t = resolve tp) ||
      l.any (fun m => pyLower (pyNameOf m) = pyLower (pyNameOf tp)))

/-! ## Helper lemmas about the store views -/

theorem strList_mem {es : List JVal} {l : List String}
    (h : strList? es = some l) (x : String) :
    strMemB es x = l.any (fun t => t = x) := by
  induction es generalizing l with
  | nil =>
    simp only [strList?, Option.some.injEq] at h
    subst h
    simp [strMemB]
  | cons e rest ih =>
    cases e with
    | jstr s =>
      simp only [strList?, Option.map_eq_some'] at h
      obtain ⟨t, ht, rfl⟩ := h
      have hstep : strMemB (JVal.jstr s :: rest) x =
          (decide (s = x) || strMemB rest x) := rfl
      rw [hstep, ih ht]
      simp [List.any_cons]
    | null => simp [strList?] at h
    | jbool b => simp [strList?] at h
    | jnum n => simp [strList?] at h
    | jarr a => simp [strList?] at h
    | jobj o => simp [strList?] at h

theorem strList_append {es : List JVal} {l : List String}
    (h : strList? es = some l) (x : String) :
    strList? (es ++ [JVal.jstr x]) = some (l ++ [x]) := by
  induction es generalizing l with
  | nil =>
    simp only [strList?, Option.some.injEq] at h
    subst h
    simp [strList?]
  | cons e rest ih =>
    cases e with
    | jstr s =>
      simp only [strList?, Option.map_eq_some'] at h
      obtain ⟨t, ht, rfl⟩ := h
      simp [strList?, ih ht]
    | null => simp [strList?] at h
    | jbool b => simp [strList?] at h
    | jnum n => simp [strList?] at h
    | jarr a => simp [strList?] at h
    | jobj o => simp [strList?] at h

theorem pySetOf_strList {es : List JVal} {l : List String}
    (h : strList? es = some l) : pySetOfJ (.jarr es) = .ok es := by
  have hcont : es.any (fun e =>
      match e with
      | JVal.jarr _ => true
      | JVal.jobj _ => true
      | _ => false) = false := by
    induction es generalizing l with
    | nil => simp
    | cons e rest ih =>
      cases e with
      | jstr s =>
        simp only [strList?, Option.map_eq_some'] at h
        obtain ⟨t, ht, rfl⟩ := h
        simp [List.any_cons, ih ht]
      | null => simp [strList?] at h
      | jbool b => simp [strList?] at h
      | jnum n => simp [strList?] at h
      | jarr a => simp [strList?] at h
      | jobj o => simp [strList?] at h
  simp [pySetOfJ, hcont]

theorem fallbackScan_strList {es : List JVal} {l : List String}
    (h : strList? es = some l) (tp : String) :
    fallbackScan tp es =
      .ok (l.any (fun m => pyLower (pyNameOf m) = pyLower (pyNameOf tp))) := by
  induction es generalizing l with
  | nil =>
    simp only [strList?, Option.some.injEq] at h
    subst h
    simp [fallbackScan]
  | cons e rest ih =>
    cases e with
    | jstr s =>
      simp only [strList?, Option.map_eq_some'] at h
      obtain ⟨t, ht, rfl⟩ := h
      simp only [fallbackScan, List.any_cons]
      by_cases hs : pyLower (pyNameOf s) = pyLower (pyNameOf tp)
      · simp [hs]
      · simp [hs, ih ht]
    | null => simp [strList?] at h
    | jbool b => simp [strList?] at h
    | jnum n => simp [strList?] at h
    | jarr a => simp [strList?] at h
    | jobj o => simp [strList?] at h

theorem implLoop_strList {es : List JVal} {l : List String}
    (h : strList? es = some l) (resolve : Resolve) (possible : List String) :
    implLoop resolve es possible =
      .ok (possible.any (fun tp =>
        l.any (fun t => t = resolve tp) ||
          l.any (fun m => pyLower (pyNameOf m) = pyLower (pyNameOf tp)))) := by
  induction possible with
  | nil => simp [implLoop]
  | cons tp rest ih =>
    simp only [implLoop, List.any_cons]
    rw [strList_mem h (resolve tp)]
    by_cases hm : l.any (fun t => t = resolve tp) = true
    · simp [hm]
    · rw [Bool.not_eq_true] at hm
      simp only [hm, Bool.false_eq_true, if_false, fallbackScan_strList h tp]
      by_cases hf : l.any (fun m =>
          pyLower (pyNameOf m) = pyLower (pyNameOf tp)) = true
      · simp [hf]
      · rw [Bool.not_eq_true] at hf
        simp [hm, hf, ih]

theorem objLookup_objSet {L : List (String × JVal)} {k : String} {w : JVal}
    (h : objLookup L k = some w) (v : JVal) :
    objLookup (objSet L k v) k = some v := by
  induction L with
  | nil => simp [objLookup] at h
  | cons p rest ih =>
    by_cases hk : p.1 = k
    · simp [objLookup, objSet, List.find?_cons, hk]
    · simp only [objLookup, objSet, List.map_cons, if_neg hk,
        List.find?_cons, hk, decide_eq_false_iff_not, not_false_eq_true,
        if_false] at h ⊢
      exact ih h

/-- A store denoting a recorded list is the empty default, or a parsed
object whose `test_files_modified` entry is an array of the recorded
strings. -/
theorem storeTests_shape {store : StoreContent} {l : List String}
    (h : storeTests store = some l) :
    (store = .missing ∧ l = []) ∨ (store = .corrupt ∧ l = []) ∨
      ∃ L es, store = .json (.jobj L) ∧
        objLookup L "test_files_modified" = some (.jarr es) ∧
        strList? es = some l := by
  cases store with
  | missing =>
    left
    simp only [storeTests, Option.some.injEq] at h
    exact ⟨rfl, h.symm⟩
  | corrupt =>
    right; left
    simp only [storeTests, Option.some.injEq] at h
    exact ⟨rfl, h.symm⟩
  | json j =>
    right; right
    cases j with
    | jobj L =>
      refine ⟨L, ?_⟩
      simp only [storeTests] at h
      cases hv : objLookup L "test_files_modified" with
      | none => rw [hv] at h; cases h
      | some v =>
        rw [hv] at h
        cases v with
        | jarr es => exact ⟨es, rfl, rfl, h⟩
        | null => cases h
        | jbool b => cases h
        | jnum n => cases h
        | jstr s => cases h
        | jobj o => cases h
    | null => cases h
    | jbool b => cases h
    | jnum n => cases h
    | jstr s => cases h
    | jarr a => cases h

/-- Recording an already-recorded normalized path: allow, no save. -/
theorem runTestBranch_mem {store : StoreContent} {l : List String}
    (h : storeTests store = some l) {x : String}
    (hx : l.any (fun t => t = x) = true) :
    runTestBranch x store = .ok ⟨allowLine, none⟩ := by
  rcases storeTests_shape h with ⟨rfl, rfl⟩ | ⟨rfl, rfl⟩ | ⟨L, es, rfl, hL, hes⟩
  · simp at hx
  · simp at hx
  · simp only [runTestBranch, load_state, hL]
    simp only [pyNotInStr, strList_mem hes x, hx]
    rfl

/-- Recording a fresh normalized path: allow, and the saved document's
recorded list is the old list with the path appended. -/
theorem runTestBranch_new {store : StoreContent} {l : List String}
    (h : storeTests store = some l) {x : String}
    (hx : l.any (fun t => t = x) = false) :
    ∃ j, runTestBranch x store = .ok ⟨allowLine, some j⟩ ∧
      storeTests (.json j) = some (l ++ [x]) := by
  rcases storeTests_shape h with ⟨rfl, rfl⟩ | ⟨rfl, rfl⟩ | ⟨L, es, rfl, hL, hes⟩
  · refine ⟨.jobj (objSet [("test_files_modified", .jarr [.jstr x]),
      ("session_id", .null)] "test_files_modified" (.jarr [.jstr x])), ?_, ?_⟩
    · rfl
    · simp [storeTests, objSet, objLookup, List.find?_cons, strList?]
  · refine ⟨.jobj (objSet [("test_files_modified", .jarr [.jstr x]),
      ("session_id", .null)] "test_files_modified" (.jarr [.jstr x])), ?_, ?_⟩
    · rfl
    · simp [storeTests, objSet, objLookup, List.find?_cons, strList?]
  · refine ⟨.jobj (objSet L "test_files_modified"
      (.jarr (es ++ [.jstr x]))), ?_, ?_⟩
    · simp only [runTestBranch, load_state, hL]
      simp only [pyNotInStr, strList_mem hes x, hx]
      rfl
    · simp only [storeTests, objLookup_objSet hL]
      exact strList_append hes x

/-- The implementation branch on a parsed store object whose recorded
entry is an array of strings. -/
theorem runImplBranch_obj {L : List (String × JVal)} {es : List JVal}
    {l : List String}
    (hL : objLookup L "test_files_modified" = some (.jarr es))
    (hes : strList? es = some l) (resolve : Resolve) (fp : String) :
    runImplBranch resolve fp (.json (.jobj L)) =
      .ok ⟨if matchesRecorded resolve l fp then allowLine
           else blockLine ((find_matching_tests fp).head?.getD (pyReplaceTs fp)),
           none⟩ := by
  simp only [runImplBranch, load_state, pyGetDefault, hL, Option.getD_some]
  simp only [pySetOf_strList hes, implLoop_strList hes resolve]
  by_cases hm : matchesRecorded resolve l fp = true
  · simp only [matchesRecorded] at hm
    simp only [hm, matchesRecorded, if_true]
  · rw [Bool.not_eq_true] at hm
    simp only [matchesRecorded] at hm
    simp only [hm, matchesRecorded, Bool.false_eq_true, if_false]

/-- The implementation branch on a store denoting `l`: no error, no
save, allow exactly when the candidate set matches the recorded list,
block naming the first candidate otherwise. -/
theorem runImplBranch_spec {store : StoreContent} {l : List String}
    (h : storeTests store = some l) (resolve : Resolve) (fp : String) :
    runImplBranch resolve fp store =
      .ok ⟨if matchesRecorded resolve l fp then allowLine
           else blockLine ((find_matching_tests fp).head?.getD (pyReplaceTs fp)),
           none⟩ := by
  rcases storeTests_shape h with ⟨rfl, rfl⟩ | ⟨rfl, rfl⟩ | ⟨L, es, rfl, hL, hes⟩
  · exact @runImplBranch_obj
      [("test_files_modified", .jarr []), ("session_id", .null)] [] []
      rfl rfl resolve fp
  · exact @runImplBranch_obj
      [("test_files_modified", .jarr []), ("session_id", .null)] [] []
      rfl rfl resolve fp
  · exact runImplBranch_obj hL hes resolve fp

/-- On a store denoting `l`, one dispatch either leaves the store alone
(no save) or saves the old list with one fresh path appended. -/
theorem dispatchPath_shape {store : StoreContent} {l : List String}
    (h : storeTests store = some l) (resolve : Resolve) (fp : String) :
    (∃ out, dispatchPath resolve fp store = .ok ⟨out, none⟩) ∨
      (∃ x j, l.any (fun t => t = x) = false ∧
        dispatchPath resolve fp store = .ok ⟨allowLine, some j⟩ ∧
        storeTests (.json j) = some (l ++ [x])) := by
  unfold dispatchPath
  by_cases hT : is_test_file fp = true
  · simp only [hT, if_true]
    by_cases hmem : l.any (fun t => t = resolve fp) = true
    · left
      exact ⟨allowLine, runTestBranch_mem h hmem⟩
    · rw [Bool.not_eq_true] at hmem
      obtain ⟨j, hj, hjl⟩ := runTestBranch_new h hmem
      right
      exact ⟨resolve fp, j, hmem, hj, hjl⟩
  · rw [Bool.not_eq_true] at hT
    simp only [hT, Bool.false_eq_true, if_false]
    by_cases hI : is_impl_file fp = true
    · simp only [hI, if_true]
      left
      rw [runImplBranch_spec h resolve fp]
      exact ⟨_, rfl⟩
    · rw [Bool.not_eq_true] at hI
      simp only [hI, Bool.false_eq_true, if_false]
      exact Or.inl ⟨allowLine, rfl⟩

/-- One invocation, whatever its request and however it ends (including
dying on an uncaught exception), either leaves the store content
untouched or appends one fresh path to the recorded list. -/
theorem runStore_mono (resolve : Resolve) (stdin : StdinContent)
    {store : StoreContent} {l : List String} (h : storeTests store = some l) :
    storeTests (runStore resolve stdin store) = some l ∨
      ∃ x, l.any (fun t => t = x) = false ∧
        storeTests (runStore resolve stdin store) = some (l ++ [x]) := by
  cases stdin with
  | notJson =>
    left
    simpa [runStore, mainRun] using h
  | json input_data =>
    cases hfv : extractFilePath input_data with
    | error e =>
      left
      simpa [runStore, mainRun, hfv] using h
    | ok fpv =>
      by_cases htr : pyTruthy fpv = true
      · cases fpv with
        | jstr fp =>
          rcases dispatchPath_shape h resolve fp with ⟨out, hout⟩ |
            ⟨x, j, hx, hout, hjl⟩
          · left
            simpa [runStore, mainRun, hfv, htr, hout] using h
          · right
            refine ⟨x, hx, ?_⟩
            simpa [runStore, mainRun, hfv, htr, hout] using hjl
        | null => simp [pyTruthy] at htr
        | jbool b =>
          left
          simpa [runStore, mainRun, hfv, htr] using h
        | jnum n =>
          left
          simpa [runStore, mainRun, hfv, htr] using h
        | jarr a =>
          left
          simpa [runStore, mainRun, hfv, htr] using h
        | jobj o =>
          left
          simpa [runStore, mainRun, hfv, htr] using h
      · left
        rw [Bool.not_eq_true] at htr
        simpa [runStore, mainRun, hfv, htr] using h

/-- Across any sequence of invocations (each with its own working
directory, filesystem and request), the recorded list only grows: no
operation of the enforcer removes a recorded path. -/
theorem runSeq_mono (steps : List (Resolve × StdinContent))
    {store : StoreContent} {l : List String} (h : storeTests store = some l) :
    ∃ l', storeTests (runSeq steps store) = some l' ∧ l ⊆ l' := by
  induction steps generalizing store l with
  | nil => exact ⟨l, h, List.Subset.refl l⟩
  | cons step rest ih =>
    obtain ⟨r, i⟩ := step
    rcases runStore_mono r i h with h1 | ⟨x, _, h1⟩
    · obtain ⟨l', hl', hsub⟩ := ih h1
      exact ⟨l', hl', hsub⟩
    · obtain ⟨l', hl', hsub⟩ := ih h1
      exact ⟨l', hl', fun a ha => hsub (List.mem_append_left _ ha)⟩

/-- For a non-empty target path, the adapter reduces a well-formed write
request to the role dispatch. -/
theorem mainRun_writeReq (resolve : Resolve) (store : StoreContent)
    {fp : String} (h : fp ≠ "") :
    mainRun resolve (writeReq fp) store = dispatchPath resolve fp store := by
  have ht : pyTruthy (.jstr fp) = true := by
    simp [pyTruthy, h]
  simp [mainRun, writeReq, extractFilePath, pyGetDefault, objLookup, ht]

/-- An implementation file is never a test file (clause order inside
`is_impl_file`). -/
theorem impl_not_test {fp : String} (h : is_impl_file fp = true) :
    is_test_file fp = false := by
  by_cases ht : is_test_file fp = true
  · unfold is_impl_file at h
    rw [ht] at h
    split at h <;> simp_all
  · rwa [Bool.not_eq_true] at ht

/-- An implementation file has a non-empty path. -/
theorem impl_ne_empty {fp : String} (h : is_impl_file fp = true) : fp ≠ "" := by
  intro he
  subst he
  exact absurd h (by decide)

theorem any_false {α : Type} (xs : List α) :
    (xs.any fun _ => false) = false := by
  induction xs with
  | nil => rfl
  | cons x rest ih => simp [ih]

/-- No candidate matches an empty recorded list. -/
theorem matchesRecorded_nil (resolve : Resolve) (fp : String) :
    matchesRecorded resolve [] fp = false := by
  simp [matchesRecorded]

/-- On an empty recorded list, every implementation write blocks, naming
the first candidate. -/
theorem implWrite_empty_blocks (resolve : Resolve) {store : StoreContent}
    (h : storeTests store = some []) {fp : String}
    (himpl : is_impl_file fp = true) :
    mainRun resolve (writeReq fp) store =
      .ok ⟨blockLine ((find_matching_tests fp).head?.getD (pyReplaceTs fp)),
           none⟩ := by
  rw [mainRun_writeReq resolve store (impl_ne_empty himpl)]
  unfold dispatchPath
  rw [impl_not_test himpl, himpl]
  simp only [Bool.false_eq_true, if_false, if_true]
  rw [runImplBranch_spec h resolve fp, matchesRecorded_nil]
  simp only [Bool.false_eq_true, if_false]

/-- On a store denoting `l`, an implementation write whose candidates
match `l` is allowed with no save. -/
theorem implWrite_match_allows (resolve : Resolve) {store : StoreContent}
    {l : List String} (h : storeTests store = some l) {fp : String}
    (himpl : is_impl_file fp = true)
    (hmatch : matchesRecorded resolve l fp = true) :
    mainRun resolve (writeReq fp) store = .ok ⟨allowLine, none⟩ := by
  rw [mainRun_writeReq resolve store (impl_ne_empty himpl)]
  unfold dispatchPath
  rw [impl_not_test himpl, himpl]
  simp only [Bool.false_eq_true, if_false, if_true]
  rw [runImplBranch_spec h resolve fp, hmatch]
  simp only [if_true]

/-- Recording a test path on a store denoting `l`: allow, and afterwards
the store denotes `l` with the resolved path inserted if absent. -/
theorem testWrite_spec (resolve : Resolve) {store : StoreContent}
    {l : List String} (h : storeTests store = some l) {fp : String}
    (ht : is_test_file fp = true) (hne : fp ≠ "") :
    (∃ r, mainRun resolve (writeReq fp) store = .ok r ∧
      r.output = allowLine) ∧
    storeTests (runStore resolve (writeReq fp) store) =
      some (if resolve fp ∈ l then l else l ++ [resolve fp]) := by
  rw [mainRun_writeReq resolve store hne] at *
  unfold dispatchPath
  rw [ht]
  simp only [if_true]
  have hmem : (l.any fun t => t = resolve fp) = true ↔ resolve fp ∈ l := by
    simp
  by_cases hx : (l.any fun t => t = resolve fp) = true
  · rw [runTestBranch_mem h hx]
    have hin : resolve fp ∈ l := hmem.mp hx
    constructor
    · exact ⟨⟨allowLine, none⟩, rfl, rfl⟩
    · simp only [runStore, mainRun_writeReq resolve store hne, dispatchPath,
        ht, if_true, runTestBranch_mem h hx]
      simpa [hin] using h
  · rw [Bool.not_eq_true] at hx
    obtain ⟨j, hj, hjl⟩ := runTestBranch_new h hx
    have hnin : resolve fp ∉ l := by
      intro hin
      rw [hmem.mpr hin] at hx
      cases hx
    rw [hj]
    constructor
    · exact ⟨⟨allowLine, some j⟩, rfl, rfl⟩
    · simp only [runStore, mainRun_writeReq resolve store hne, dispatchPath,
        ht, if_true, hj]
      simpa [hnin] using hjl

/-- Re-running the same test-write on its own result changes nothing:
the second run finds the path already recorded and skips the save. -/
theorem testWrite_fix (resolve : Resolve) {store : StoreContent}
    {l : List String} (h : storeTests store = some l) {fp : String}
    (ht : is_test_file fp = true) (hne : fp ≠ "") :
    runStore resolve (writeReq fp) (runStore resolve (writeReq fp) store) =
      runStore resolve (writeReq fp) store := by
  have h1 := (testWrite_spec resolve h ht hne).2
  have hmem : resolve fp ∈
      (if resolve fp ∈ l then l else l ++ [resolve fp]) := by
    by_cases hin : resolve fp ∈ l
    · simp [hin]
    · simp [hin]
  have hany : ((if resolve fp ∈ l then l else l ++ [resolve fp]).any
      fun t => t = resolve fp) = true := by
    simp only [List.any_eq_true, decide_eq_true_eq]
    exact ⟨resolve fp, hmem, rfl⟩
  have hmain : mainRun resolve (writeReq fp)
      (runStore resolve (writeReq fp) store) = .ok ⟨allowLine, none⟩ := by
    rw [mainRun_writeReq resolve _ hne]
    unfold dispatchPath
    rw [ht]
    simp only [if_true]
    exact runTestBranch_mem h1 hany
  conv_lhs => rw [runStore, hmain]

/-! ## Interleaved invocations sharing the store (two racing recorders) -/

/-- Shared store plus the snapshot each of two concurrent invocations
took when it executed `load_state`. -/
structure RaceState where
  store : StoreContent
  snapA : Option StoreContent
  snapB : Option StoreContent

/-- Events of two concurrent invocations A and B: each performs its
`load_state` read and then its compute-and-write against its own
snapshot (`save_state` blindly overwrites the whole document). -/
inductive RaceEv where
  | loadA : RaceEv
  | loadB : RaceEv
  | saveA : RaceEv
  | saveB : RaceEv

/-- One interleaving step: a load snapshots the current shared store; a
save writes the document the invocation computed from its own snapshot
(nothing is written when that invocation performed no save). -/
def raceStep (resolve : Resolve) (fpA fpB : String) (st : RaceState) :
    RaceEv → RaceState
  | .loadA => { st with snapA := some st.store }
  | .loadB => { st with snapB := some st.store }
  | .saveA =>
    match st.snapA with
    | some snap =>
      match mainRun resolve (writeReq fpA) snap with
      | .ok r =>
        match r.saved with
        | some j => { st with store := .json j }
        | none => st
      | .error _ => st
    | none => st
  | .saveB =>
    match st.snapB with
    | some snap =>
      match mainRun resolve (writeReq fpB) snap with
      | .ok r =>
        match r.saved with
        | some j => { st with store := .json j }
        | none => st
      | .error _ => st
    | none => st

/-- The shared store after an interleaving of the two invocations. -/
def raceRun (resolve : Resolve) (fpA fpB : String) (s0 : StoreContent)
    (evs : List RaceEv) : StoreContent :=
  (evs.foldl (raceStep resolve fpA fpB) ⟨s0, none, none⟩).store

/-! ## Claim theorems -/

/-- C1 (code bug): the spec says every invocation terminates having
emitted exactly one JSON response, with any internal fault degrading to
Allow — in particular for every store-file content, including valid JSON
not of the expected shape.  The code violates this: with a store file
containing the valid JSON document `\x7b\x7d` (no `test_files_modified`
key), a test-file write intent executes
`state["test_files_modified"]` at line 152 of `tdd_enforcer.py`, raises
`KeyError`, and terminates with no response at all instead of one Allow
response. -/
theorem claim_C1_keyerror :
    is_test_file "foo.test.ts" = true ∧
    mainRun (plainResolve "/w") (writeReq "foo.test.ts") (.json (.jobj [])) =
      .error .keyError ∧
    mainRun (plainResolve "/w") (writeReq "foo.test.ts")
      (.json (.jobj [("session_id", .null)])) = .error .keyError :=
  ⟨rfl, rfl, rfl⟩

/-- C2 counterexample: the claim says every path with an unrecognized
extension is Ignored and never recorded, even inside a `tests`
directory, naming `tests/data.json`.  On the code, `main` consults
`is_test_file` before any extension gate, so `tests/data.json` is
classified Test, allowed, and recorded in the store. -/
theorem claim_C2_counterexample :
    implExtensions.contains (pySuffixOfName (pyNameOf "tests/data.json")) =
      false ∧
    is_test_file "tests/data.json" = true ∧
    mainRun (plainResolve "/w") (writeReq "tests/data.json")
        (.json resetState) =
      .ok ⟨allowLine,
        some (.jobj [("test_files_modified", .jarr [.jstr "/w/tests/data.json"]),
                     ("session_id", .null), ("started_at", .null)])⟩ ∧
    storeTests (runStore (plainResolve "/w") (writeReq "tests/data.json")
        (.json resetState)) = some ["/w/tests/data.json"] :=
  ⟨rfl, rfl, rfl, rfl⟩

/-- C2 as amended: every path whose extension is unrecognized AND that
is not classified Test (no `tests`/`__tests__` segment and no test
marker in its name) yields Allow with no store write; but a path with an
unrecognized extension that satisfies the test heuristic is classified
Test and recorded (see the counterexample). -/
theorem claim_C2_amended (fp : String) (resolve : Resolve)
    (store : StoreContent)
    (hext : implExtensions.contains (pySuffixOfName (pyNameOf fp)) = false)
    (htest : is_test_file fp = false) :
    mainRun resolve (writeReq fp) store = .ok ⟨allowLine, none⟩ := by
  have hI : is_impl_file fp = false := by
    unfold is_impl_file
    rw [hext]
    rfl
  by_cases h0 : fp = ""
  · subst h0
    rfl
  · rw [mainRun_writeReq resolve store h0]
    unfold dispatchPath
    rw [htest, hI]
    simp only [Bool.false_eq_true, if_false]

/-- Witness for the amended C2 at a concrete unrecognized, non-test
path and an absent store. -/
theorem claim_C2_amended_witness :
    implExtensions.contains (pySuffixOfName (pyNameOf "notes.txt")) = false ∧
    is_test_file "notes.txt" = false ∧
    mainRun (plainResolve "/w") (writeReq "notes.txt") .missing =
      .ok ⟨allowLine, none⟩ :=
  ⟨rfl, rfl, claim_C2_amended "notes.txt" (plainResolve "/w") .missing rfl rfl⟩

/-- C8 counterexample: the claim says the entire output on malformed
stdin is exactly the byte sequence with no space after the colon.  The
code prints `json.dumps(\x7b"decision": "allow"\x7d)`, whose default
separators put a space after the colon, and `print` appends a newline,
so the emitted bytes differ from the claimed ones. -/
theorem claim_C8_counterexample :
    mainRun (plainResolve "/w") .notJson .missing = .ok ⟨allowLine, none⟩ ∧
    allowLine ≠ "\x7b\"decision\":\"allow\"\x7d" :=
  ⟨rfl, by decide⟩

/-- C8 as amended: on every invocation whose input channel does not
contain valid JSON, the process does not crash, mutates no store, and
its entire output is exactly one JSON document — the bytes
`\x7b"decision": "allow"\x7d` followed by the newline appended by
`print`. -/
theorem claim_C8_amended (resolve : Resolve) (store : StoreContent) :
    mainRun resolve .notJson store = .ok ⟨allowLine, none⟩ ∧
    runStore resolve .notJson store = store ∧
    allowLine = "\x7b\"decision\": \"allow\"\x7d\n" :=
  ⟨rfl, rfl, rfl⟩

/-- C3 counterexample: the claim describes group (b) as "a sibling test
subdirectory (__tests__) containing the same infix variants" as group
(a) (`.test`/`.spec` and `_test`/`_spec`).  On the code, the
`__tests__` group omits the `_test`/`_spec` variants and additionally
contains a bare copy of the file name formed with no infix at all:
for `src/utils/math.ts`, `src/utils/__tests__/math_test.ts` is not
generated while `src/utils/__tests__/math.ts` is. -/
theorem claim_C3_counterexample :
    ("src/utils/__tests__/math_test.ts" ∉
      find_matching_tests "src/utils/math.ts") ∧
    ("src/utils/__tests__/math.ts" ∈ find_matching_tests "src/utils/math.ts") :=
  ⟨by decide, by decide⟩

/-- C3 as amended: candidates are generated in fixed priority order —
(a) exactly the four same-directory siblings with `.test`/`.spec`/
`_test`/`_spec` infixes; (b) the `__tests__` sibling subdirectory with
the `.test`/`.spec` infix variants plus an un-infixed copy of the file
name; (c) when a `src` segment is present, the path with the first such
segment replaced by `tests`, with `.test`/`.spec` variants.  The
sequence is always non-empty, and a Block decision's reason names the
first-priority candidate: `src/utils/math.test.ts` for
`src/utils/math.ts`. -/
theorem claim_C3_amended (store : StoreContent) (fp : String)
    (resolve : Resolve) (h : storeTests store = some [])
    (himpl : is_impl_file fp = true) :
    find_matching_tests fp ≠ [] ∧
    mainRun resolve (writeReq fp) store =
      .ok ⟨blockLine ((find_matching_tests fp).head?.getD (pyReplaceTs fp)),
           none⟩ ∧
    find_matching_tests "src/utils/math.ts" =
      ["src/utils/math.test.ts", "src/utils/math.spec.ts",
       "src/utils/math_test.ts", "src/utils/math_spec.ts",
       "src/utils/__tests__/math.test.ts", "src/utils/__tests__/math.spec.ts",
       "src/utils/__tests__/math.ts",
       "tests/utils/math.test.ts", "tests/utils/math.spec.ts"] := by
  refine ⟨?_, implWrite_empty_blocks resolve h himpl, by decide⟩
  unfold find_matching_tests
  simp

/-- Witness for the amended C3: scenario 2 of the spec, a fresh session
and a direct implementation write of `src/utils/math.ts`, blocked with a
reason naming `src/utils/math.test.ts`. -/
theorem claim_C3_amended_witness :
    storeTests (.json resetState) = some [] ∧
    is_impl_file "src/utils/math.ts" = true ∧
    mainRun (plainResolve "/w") (writeReq "src/utils/math.ts")
        (.json resetState) =
      .ok ⟨blockLine "src/utils/math.test.ts", none⟩ :=
  ⟨rfl, rfl,
    (claim_C3_amended (.json resetState) "src/utils/math.ts"
      (plainResolve "/w") rfl rfl).2.1⟩

/-- C4 (confirmed): for every implementation write, if some recorded
path's file name equals some candidate's file name case-insensitively —
with no constraint at all relating their directories — the decision is
Allow with no store mutation. -/
theorem claim_C4_name_fallback (resolve : Resolve) (store : StoreContent)
    (l : List String) (fp m c : String)
    (h : storeTests store = some l) (hm : m ∈ l)
    (hc : c ∈ find_matching_tests fp) (himpl : is_impl_file fp = true)
    (hname : pyLower (pyNameOf m) = pyLower (pyNameOf c)) :
    mainRun resolve (writeReq fp) store = .ok ⟨allowLine, none⟩ := by
  apply implWrite_match_allows resolve h himpl
  simp only [matchesRecorded, List.any_eq_true, decide_eq_true_eq,
    Bool.or_eq_true]
  exact ⟨c, hc, Or.inr ⟨m, hm, hname⟩⟩

/-- Witness for C4: scenario 3 of the spec — record
`src/foo/bar.spec.tsx`, then write `src/foo/Bar.tsx`; the recorded
path's name `bar.spec.tsx` equals the candidate `src/foo/Bar.spec.tsx`'s
name case-insensitively, so the write is allowed. -/
theorem claim_C4_name_fallback_witness :
    is_test_file "src/foo/bar.spec.tsx" = true ∧
    storeTests (runStore (plainResolve "/w") (writeReq "src/foo/bar.spec.tsx")
      (.json resetState)) = some ["/w/src/foo/bar.spec.tsx"] ∧
    mainRun (plainResolve "/w") (writeReq "src/foo/Bar.tsx")
        (runStore (plainResolve "/w") (writeReq "src/foo/bar.spec.tsx")
          (.json resetState)) =
      .ok ⟨allowLine, none⟩ :=
  ⟨rfl, rfl,
    claim_C4_name_fallback (plainResolve "/w") _ ["/w/src/foo/bar.spec.tsx"]
      "src/foo/Bar.tsx" "/w/src/foo/bar.spec.tsx" "src/foo/Bar.spec.tsx"
      rfl (by decide) (by decide) rfl rfl⟩

/-- C5 (confirmed): every path classified Test is Allowed
unconditionally; afterwards the store's recorded list is the prior list
with the normalized (resolved) path inserted if absent; and the insert
is idempotent — repeating the same write any positive number of times
leaves the store exactly as after one write. -/
theorem claim_C5_test_record (resolve : Resolve) (store : StoreContent)
    (l : List String) (fp : String) (h : storeTests store = some l)
    (ht : is_test_file fp = true) (hne : fp ≠ "") :
    (∃ r, mainRun resolve (writeReq fp) store = .ok r ∧
      r.output = allowLine) ∧
    storeTests (runStore resolve (writeReq fp) store) =
      some (if resolve fp ∈ l then l else l ++ [resolve fp]) ∧
    ∀ n : Nat,
      (fun s => runStore resolve (writeReq fp) s)^[n + 1] store =
        runStore resolve (writeReq fp) store := by
  obtain ⟨hallow, hlist⟩ := testWrite_spec resolve h ht hne
  refine ⟨hallow, hlist, ?_⟩
  intro n
  induction n with
  | zero => rfl
  | succ k ih =>
    rw [Function.iterate_succ_apply', ih]
    exact testWrite_fix resolve h ht hne

/-- Witness for C5: recording `src/utils/math.test.ts` twice from a
fresh session equals recording it once, and each run allows. -/
theorem claim_C5_test_record_witness :
    storeTests (.json resetState) = some [] ∧
    is_test_file "src/utils/math.test.ts" = true ∧
    ((∃ r, mainRun (plainResolve "/w") (writeReq "src/utils/math.test.ts")
        (.json resetState) = .ok r ∧ r.output = allowLine) ∧
     storeTests (runStore (plainResolve "/w")
        (writeReq "src/utils/math.test.ts") (.json resetState)) =
       some (if plainResolve "/w" "src/utils/math.test.ts" ∈ ([] : List String)
             then [] else [] ++ [plainResolve "/w" "src/utils/math.test.ts"]) ∧
     ∀ n : Nat,
       (fun s => runStore (plainResolve "/w")
         (writeReq "src/utils/math.test.ts") s)^[n + 1] (.json resetState) =
         runStore (plainResolve "/w") (writeReq "src/utils/math.test.ts")
           (.json resetState)) :=
  ⟨rfl, rfl,
    claim_C5_test_record (plainResolve "/w") (.json resetState) []
      "src/utils/math.test.ts" rfl rfl (by decide)⟩

/-- C6 (confirmed): within one session, once a test path is recorded no
enforcer invocation removes it (the recorded list only grows under any
sequence of intervening requests, each with its own working directory
and filesystem), and every later implementation write whose candidate
set matches it — exactly on the normalized path or via the
case-insensitive file-name fallback — is Allowed. -/
theorem claim_C6_monotone (resolve : Resolve) (store : StoreContent)
    (l : List String) (p fp : String)
    (steps : List (Resolve × StdinContent))
    (h : storeTests store = some l) (hp : p ∈ l)
    (himpl : is_impl_file fp = true)
    (hmatch : ∃ c ∈ find_matching_tests fp,
      resolve c = p ∨ pyLower (pyNameOf p) = pyLower (pyNameOf c)) :
    ∃ l', storeTests (runSeq steps store) = some l' ∧ l ⊆ l' ∧
      mainRun resolve (writeReq fp) (runSeq steps store) =
        .ok ⟨allowLine, none⟩ := by
  obtain ⟨l', hl', hsub⟩ := runSeq_mono steps h
  refine ⟨l', hl', hsub, ?_⟩
  apply implWrite_match_allows resolve hl' himpl
  obtain ⟨c, hc, hcp⟩ := hmatch
  simp only [matchesRecorded, List.any_eq_true, decide_eq_true_eq,
    Bool.or_eq_true]
  rcases hcp with hcp | hcp
  · exact ⟨c, hc, Or.inl ⟨p, hsub hp, hcp.symm⟩⟩
  · exact ⟨c, hc, Or.inr ⟨p, hsub hp, hcp⟩⟩

/-- Witness for C6: record `src/utils/math.test.ts`, run two unrelated
intervening invocations (a config write and a malformed request), then
write `src/utils/math.ts`: still recorded, still Allowed. -/
theorem claim_C6_monotone_witness :
    storeTests (runStore (plainResolve "/w")
      (writeReq "src/utils/math.test.ts") (.json resetState)) =
      some ["/w/src/utils/math.test.ts"] ∧
    (∃ l', storeTests (runSeq
        [(plainResolve "/q", writeReq "vite.config.ts"),
         (plainResolve "/q", .notJson)]
        (runStore (plainResolve "/w") (writeReq "src/utils/math.test.ts")
          (.json resetState))) = some l' ∧
      ["/w/src/utils/math.test.ts"] ⊆ l' ∧
      mainRun (plainResolve "/w") (writeReq "src/utils/math.ts")
        (runSeq [(plainResolve "/q", writeReq "vite.config.ts"),
                 (plainResolve "/q", .notJson)]
          (runStore (plainResolve "/w") (writeReq "src/utils/math.test.ts")
            (.json resetState))) = .ok ⟨allowLine, none⟩) :=
  ⟨rfl,
    claim_C6_monotone (plainResolve "/w") _ ["/w/src/utils/math.test.ts"]
      "/w/src/utils/math.test.ts" "src/utils/math.ts"
      [(plainResolve "/q", writeReq "vite.config.ts"),
       (plainResolve "/q", .notJson)]
      rfl (by decide) rfl
      ⟨"src/utils/math.test.ts", by decide, Or.inl rfl⟩⟩

/-- C7 (confirmed): the session-start reset unconditionally overwrites
the store — whatever its previous content, including an absent backing
file — with the empty state (empty recorded list, null `session_id` and
`started_at`); it is idempotent; and immediately after a reset every
implementation write is Blocked (in particular any write whose only
matching tests were recorded before the reset), with a reason naming the
first candidate. -/
theorem claim_C7_reset (store₁ store₂ : StoreContent) (resolve : Resolve)
    (fp : String) (himpl : is_impl_file fp = true) :
    (sessionStartRun store₁).store = .json resetState ∧
    (sessionStartRun store₂).store = (sessionStartRun store₁).store ∧
    sessionStartRun ((sessionStartRun store₁).store) = sessionStartRun store₁ ∧
    storeTests (.json resetState) = some [] ∧
    mainRun resolve (writeReq fp) (.json resetState) =
      .ok ⟨blockLine ((find_matching_tests fp).head?.getD (pyReplaceTs fp)),
           none⟩ :=
  ⟨rfl, rfl, rfl, rfl,
    implWrite_empty_blocks resolve
      (show storeTests (.json resetState) = some [] from rfl) himpl⟩

/-- Witness for C7: record `src/utils/math.test.ts`, reset, then write
`src/utils/math.ts`: blocked, because the matching test was recorded
only before the reset. -/
theorem claim_C7_reset_witness :
    is_impl_file "src/utils/math.ts" = true ∧
    ((sessionStartRun (runStore (plainResolve "/w")
        (writeReq "src/utils/math.test.ts") (.json resetState))).store =
      .json resetState ∧
     (sessionStartRun StoreContent.missing).store =
       (sessionStartRun (runStore (plainResolve "/w")
         (writeReq "src/utils/math.test.ts") (.json resetState))).store ∧
     sessionStartRun ((sessionStartRun (runStore (plainResolve "/w")
        (writeReq "src/utils/math.test.ts") (.json resetState))).store) =
       sessionStartRun (runStore (plainResolve "/w")
         (writeReq "src/utils/math.test.ts") (.json resetState)) ∧
     storeTests (.json resetState) = some [] ∧
     mainRun (plainResolve "/w") (writeReq "src/utils/math.ts")
         (.json resetState) =
       .ok ⟨blockLine ((find_matching_tests "src/utils/math.ts").head?.getD
         (pyReplaceTs "src/utils/math.ts")), none⟩) :=
  ⟨rfl,
    claim_C7_reset
      (runStore (plainResolve "/w") (writeReq "src/utils/math.test.ts")
        (.json resetState))
      StoreContent.missing (plainResolve "/w") "src/utils/math.ts" rfl⟩

/-- C9 (code bug): the spec requires that two concurrent invocations
each recording a distinct test path lose neither update, via an atomic
update primitive.  The code's `save_state` blindly overwrites the whole
document with the state loaded earlier, so in the interleaving where
both invocations execute `load_state` before either writes, the second
write clobbers the first: after A records `/a.test.ts` and B records
`/b.test.ts` against the same initially-empty store, the store holds
only `/b.test.ts`.  A serialized schedule keeps both, showing the loss
is caused by the interleaving, not by the requests. -/
theorem claim_C9_lost_update :
    storeTests (raceRun (plainResolve "/w") "/a.test.ts" "/b.test.ts"
        (.json resetState) [.loadA, .loadB, .saveA, .saveB]) =
      some ["/b.test.ts"] ∧
    ("/a.test.ts" ∉ ["/b.test.ts"]) ∧
    storeTests (raceRun (plainResolve "/w") "/a.test.ts" "/b.test.ts"
        (.json resetState) [.loadA, .saveA, .loadB, .saveB]) =
      some ["/a.test.ts", "/b.test.ts"] :=
  ⟨rfl, by decide, rfl⟩

/-- C10 (confirmed): the decision is not a function of the request
document and store contents alone.  `normalize_path` resolves the
target against the invoking process's working directory and filesystem:
the same request from working directories `/alpha` and `/beta` records
two different normalized paths; and with identical request and store, a
filesystem in which `/w/math.test.ts` is a symlink to the recorded
`/real/weird.ts` yields Allow where a symlink-free filesystem yields
Block. -/
theorem claim_C10_env_dependent :
    storeTests (runStore (plainResolve "/alpha") (writeReq "t.test.ts")
        (.json resetState)) = some ["/alpha/t.test.ts"] ∧
    storeTests (runStore (plainResolve "/beta") (writeReq "t.test.ts")
        (.json resetState)) = some ["/beta/t.test.ts"] ∧
    mainRun (linkResolve "/w" [("/w/math.test.ts", "/real/weird.ts")])
        (writeReq "math.ts")
        (.json (.jobj [("test_files_modified", .jarr [.jstr "/real/weird.ts"]),
                       ("session_id", .null)])) =
      .ok ⟨allowLine, none⟩ ∧
    mainRun (linkResolve "/w" []) (writeReq "math.ts")
        (.json (.jobj [("test_files_modified", .jarr [.jstr "/real/weird.ts"]),
                       ("session_id", .null)])) =
      .ok ⟨blockLine "math.test.ts", none⟩ :=
  ⟨rfl, rfl, rfl, rfl⟩
